import Mathlib

/-!
Verification of the access-control core of the Clarity Label image-annotation
application.  The authoritative artifacts are the SQL migrations: the initial
schema and row-level-security policies, followed by migrations that
progressively simplify the policy set.  We embed the FINAL policy state, i.e.
the set of policies that remain after all migrations have been applied in
order:

  * `profiles`        : "Users can view own profile" (SELECT, `auth.uid() = id`),
                        "Users can update own profile" (UPDATE, `auth.uid() = id`).
  * `projects`        : "Users can manage their own projects" (ALL,
                        USING/WITH CHECK `created_by = auth.uid()`); every other
                        project policy was dropped by the last migration.
  * `project_members` : "Admins can manage project members" (ALL,
                        `has_role(auth.uid(), 'admin')`),
                        "Users can view their project memberships" (SELECT,
                        `user_id = auth.uid()`),
                        "Project creator can add themselves as member" (INSERT,
                        WITH CHECK self-enrollment into an owned project).
  * `labels`, `images`: "Users can manage labels/images in their projects" (ALL,
                        owning project's `created_by = auth.uid()`).
  * `annotations`     : "Users can manage annotations in their projects" (ALL,
                        USING: the image-to-project join has
                        `projects.created_by = auth.uid()`; WITH CHECK: the same
                        AND `created_by = auth.uid()`).

Identifiers (`auth.uid()` values, row ids) are modelled as `Nat`.  Tables are
lists of rows; the store is the whole database state.  Postgres RLS semantics:
permissive policies for the same command are OR-ed; a `FOR ALL` policy without
an explicit WITH CHECK uses its USING expression as the WITH CHECK; when no
policy applies the operation is denied (default DENY).
-/

/-- Global role of a profile, the `user_role` enum of the schema. -/
inductive Role where
  | admin
  | annotator
  | reviewer
deriving DecidableEq

/-- Status of a project, the `project_status` enum. -/
inductive ProjectStatus where
  | active
  | completed
  | paused
deriving DecidableEq

/-- Status of an image, the `image_status` enum. -/
inductive ImageStatus where
  | pending
  | in_progress
  | completed
  | reviewed
  | rejected
deriving DecidableEq

/-- Shape kind of an annotation, the `annotation_type` enum. -/
inductive AnnType where
  | bounding_box
  | polygon
  | keypoint
  | classification
  | mask
deriving DecidableEq

/-- Row of `public.profiles` (one per authenticated user, created on signup). -/
structure Profile where
  id : Nat
  email : String
  full_name : String
  role : Role
deriving DecidableEq

/-- Row of `public.projects`. -/
structure Project where
  id : Nat
  name : String
  created_by : Nat
  status : ProjectStatus
deriving DecidableEq

/-- Row of `public.project_members`; `UNIQUE(project_id, user_id)`. -/
structure ProjectMember where
  id : Nat
  project_id : Nat
  user_id : Nat
  role : Role
deriving DecidableEq

/-- Row of `public.labels`; `UNIQUE(project_id, name)`. -/
structure Label where
  id : Nat
  project_id : Nat
  name : String
  color : String
  ann_type : AnnType
deriving DecidableEq

/-- Row of `public.images`. -/
structure Image where
  id : Nat
  project_id : Nat
  filename : String
  status : ImageStatus
  assigned_to : Option Nat
  uploaded_by : Nat
deriving DecidableEq

/-- Row of `public.annotations` (the JSONB payload is kept opaque). -/
structure Ann where
  id : Nat
  image_id : Nat
  label_id : Nat
  ann_data : String
  ann_type : AnnType
  created_by : Nat
  reviewed_by : Option Nat
  is_approved : Option Bool
deriving DecidableEq

/-- Whole database state: one list per RLS-protected table. -/
structure Store where
  profiles : List Profile
  projects : List Project
  members : List ProjectMember
  labels : List Label
  images : List Image
  anns : List Ann
deriving DecidableEq

/-- Database state with every table empty. -/
def emptyStore : Store :=
  { profiles := [], projects := [], members := [], labels := [], images := [], anns := [] }

/-- SQL function `public.has_role(_user_id, _role)`:
`EXISTS (SELECT 1 FROM profiles WHERE id = _user_id AND role = _role)`. -/
def hasRole (s : Store) (uid : Nat) (r : Role) : Bool :=
  s.profiles.any fun p => p.id == uid && decide (p.role = r)

/-- SQL command kind an RLS policy applies to. -/
inductive Act where
  | select
  | insert
  | update
  | delete
deriving DecidableEq

/-- Policy "Users can view own profile" / "Users can update own profile":
`auth.uid() = id`. -/
def profilesOwn (uid : Nat) (r : Profile) : Bool :=
  uid == r.id

/-- Policy "Users can manage their own projects" (ALL), USING and WITH CHECK:
`created_by = auth.uid()`. -/
def projectsOwn (uid : Nat) (p : Project) : Bool :=
  p.created_by == uid

/-- Policy "Users can manage labels in their projects" (ALL), USING and
WITH CHECK: `EXISTS (SELECT 1 FROM projects WHERE projects.id =
labels.project_id AND projects.created_by = auth.uid())`. -/
def labelsOwnProject (s : Store) (uid : Nat) (l : Label) : Bool :=
  s.projects.any fun p => p.id == l.project_id && p.created_by == uid

/-- Policy "Users can manage images in their projects" (ALL), USING and
WITH CHECK: `EXISTS (SELECT 1 FROM projects WHERE projects.id =
images.project_id AND projects.created_by = auth.uid())`. -/
def imagesOwnProject (s : Store) (uid : Nat) (i : Image) : Bool :=
  s.projects.any fun p => p.id == i.project_id && p.created_by == uid

/-- USING clause of policy "Users can manage annotations in their projects":
`EXISTS (SELECT 1 FROM images JOIN projects ON projects.id = images.project_id
WHERE images.id = annotations.image_id AND projects.created_by = auth.uid())`. -/
def annsUsing (s : Store) (uid : Nat) (a : Ann) : Bool :=
  s.images.any fun i =>
    i.id == a.image_id && s.projects.any fun p => p.id == i.project_id && p.created_by == uid

/-- WITH CHECK clause of "Users can manage annotations in their projects":
the USING join condition AND `created_by = auth.uid()`. -/
def annsCheck (s : Store) (uid : Nat) (a : Ann) : Bool :=
  annsUsing s uid a && a.created_by == uid

/-- Policy "Admins can manage project members" (ALL):
`public.has_role(auth.uid(), 'admin')`. -/
def membersAdmin (s : Store) (uid : Nat) : Bool :=
  hasRole s uid Role.admin

/-- Policy "Users can view their project memberships" (SELECT):
`user_id = auth.uid()`. -/
def membersOwn (uid : Nat) (m : ProjectMember) : Bool :=
  m.user_id == uid

/-- WITH CHECK of policy "Project creator can add themselves as member"
(INSERT): `project_id IN (SELECT id FROM projects WHERE created_by =
auth.uid()) AND user_id = auth.uid()`. -/
def membersSelfEnroll (s : Store) (uid : Nat) (m : ProjectMember) : Bool :=
  (s.projects.any fun p => p.id == m.project_id && p.created_by == uid) && m.user_id == uid

/-- Permissive policies for `project_members` INSERT, OR-ed: the admin ALL
policy (whose WITH CHECK defaults to its USING) or self-enrollment. -/
def membersInsertAllowed (s : Store) (uid : Nat) (m : ProjectMember) : Bool :=
  membersAdmin s uid || membersSelfEnroll s uid m

/-- Kind of entity an authorization question refers to. -/
inductive EntityKind where
  | profile
  | project
  | member
  | label
  | image
  | ann
deriving DecidableEq

/-- Row lookup by primary key. -/
def findProfile (s : Store) (pid : Nat) : Option Profile :=
  s.profiles.find? fun r => r.id == pid

/-- Row lookup by primary key. -/
def findProject (s : Store) (pid : Nat) : Option Project :=
  s.projects.find? fun p => p.id == pid

/-- Row lookup by primary key. -/
def findMember (s : Store) (mid : Nat) : Option ProjectMember :=
  s.members.find? fun m => m.id == mid

/-- Row lookup by primary key. -/
def findLabel (s : Store) (lid : Nat) : Option Label :=
  s.labels.find? fun l => l.id == lid

/-- Row lookup by primary key. -/
def findImage (s : Store) (iid : Nat) : Option Image :=
  s.images.find? fun i => i.id == iid

/-- Row lookup by primary key. -/
def findAnn (s : Store) (aid : Nat) : Option Ann :=
  s.anns.find? fun a => a.id == aid

/-- Policy evaluator `authorize(principal, action, entityKind, entityId)`:
looks the row up by id and evaluates the OR of the final RLS policies that
apply to the action (USING for SELECT/UPDATE/DELETE row gating, WITH CHECK
for INSERT).  A missing row, or an action no policy covers, is DENY. -/
def authorize (s : Store) (uid : Nat) (act : Act) (k : EntityKind) (eid : Nat) : Bool :=
  match k with
  | .profile =>
      match findProfile s eid with
      | none => false
      | some r =>
          match act with
          | .select => profilesOwn uid r
          | .update => profilesOwn uid r
          | _ => false
  | .project =>
      match findProject s eid with
      | none => false
      | some p => projectsOwn uid p
  | .member =>
      match findMember s eid with
      | none => false
      | some m =>
          match act with
          | .select => membersAdmin s uid || membersOwn uid m
          | .insert => membersInsertAllowed s uid m
          | _ => membersAdmin s uid
  | .label =>
      match findLabel s eid with
      | none => false
      | some l => labelsOwnProject s uid l
  | .image =>
      match findImage s eid with
      | none => false
      | some i => imagesOwnProject s uid i
  | .ann =>
      match findAnn s eid with
      | none => false
      | some a =>
          match act with
          | .insert => annsCheck s uid a
          | _ => annsUsing s uid a

/-- Errors a storage operation can report.  `policyDenied` is an RLS
rejection, `uniqueConstraintViolation` a violated UNIQUE or PRIMARY KEY
constraint, `fkViolation` a write referencing a missing parent row,
`notFound` an update/delete of a row that does not exist. -/
inductive DbErr where
  | policyDenied
  | uniqueConstraintViolation
  | fkViolation
  | notFound
deriving DecidableEq

/-- Signup path: the `handle_new_user` trigger (SECURITY DEFINER, bypasses
RLS) inserts a profile for a fresh auth user; `role` takes its column
DEFAULT `annotator`. -/
def signup (s : Store) (uid : Nat) (email fullName : String) : Store × Option DbErr :=
  if s.profiles.any fun r => r.id == uid then (s, some DbErr.uniqueConstraintViolation)
  else ({ s with profiles := ⟨uid, email, fullName, Role.annotator⟩ :: s.profiles }, none)

/-- UPDATE on `profiles` under policy "Users can update own profile"
(USING `auth.uid() = id`; no WITH CHECK clause, so it defaults to USING,
which the by-id lookup makes coincide with the USING check). -/
def updateProfile (s : Store) (uid : Nat) (new : Profile) : Store × Option DbErr :=
  match findProfile s new.id with
  | none => (s, some DbErr.notFound)
  | some old =>
      if profilesOwn uid old then
        ({ s with profiles := s.profiles.map fun r => if r.id == new.id then new else r }, none)
      else (s, some DbErr.policyDenied)

/-- INSERT on `projects` under "Users can manage their own projects"
(WITH CHECK `created_by = auth.uid()`), plus the PRIMARY KEY constraint. -/
def insertProject (s : Store) (uid : Nat) (p : Project) : Store × Option DbErr :=
  if projectsOwn uid p then
    if s.projects.any fun q => q.id == p.id then (s, some DbErr.uniqueConstraintViolation)
    else ({ s with projects := p :: s.projects }, none)
  else (s, some DbErr.policyDenied)

/-- UPDATE on `projects`: USING on the stored row and WITH CHECK on the new
row, both `created_by = auth.uid()`. -/
def updateProject (s : Store) (uid : Nat) (new : Project) : Store × Option DbErr :=
  match findProject s new.id with
  | none => (s, some DbErr.notFound)
  | some old =>
      if projectsOwn uid old then
        if projectsOwn uid new then
          ({ s with projects := s.projects.map fun q => if q.id == new.id then new else q }, none)
        else (s, some DbErr.policyDenied)
      else (s, some DbErr.policyDenied)

/-- DELETE on `projects` (USING `created_by = auth.uid()`), with the
schema's `ON DELETE CASCADE` to members, labels, images and, through
images and labels, annotations. -/
def deleteProject (s : Store) (uid : Nat) (pid : Nat) : Store × Option DbErr :=
  match findProject s pid with
  | none => (s, some DbErr.notFound)
  | some p =>
      if projectsOwn uid p then
        ({ s with
            projects := s.projects.filter fun q => !(q.id == pid),
            members := s.members.filter fun m => !(m.project_id == pid),
            labels := s.labels.filter fun l => !(l.project_id == pid),
            images := s.images.filter fun i => !(i.project_id == pid),
            anns := s.anns.filter fun a =>
              !(s.images.any fun i => i.project_id == pid && i.id == a.image_id) &&
              !(s.labels.any fun l => l.project_id == pid && l.id == a.label_id) }, none)
      else (s, some DbErr.policyDenied)

/-- INSERT on `project_members`: admin ALL policy OR self-enrollment policy,
then the FOREIGN KEY to `projects`, the `UNIQUE(project_id, user_id)`
constraint and the PRIMARY KEY. -/
def insertMember (s : Store) (uid : Nat) (m : ProjectMember) : Store × Option DbErr :=
  if membersInsertAllowed s uid m then
    if s.projects.any fun p => p.id == m.project_id then
      if s.members.any fun x => x.project_id == m.project_id && x.user_id == m.user_id then
        (s, some DbErr.uniqueConstraintViolation)
      else if s.members.any fun x => x.id == m.id then (s, some DbErr.uniqueConstraintViolation)
      else ({ s with members := m :: s.members }, none)
    else (s, some DbErr.fkViolation)
  else (s, some DbErr.policyDenied)

/-- DELETE on `project_members`: only the admin ALL policy applies. -/
def deleteMember (s : Store) (uid : Nat) (mid : Nat) : Store × Option DbErr :=
  match findMember s mid with
  | none => (s, some DbErr.notFound)
  | some _ =>
      if membersAdmin s uid then
        ({ s with members := s.members.filter fun m => !(m.id == mid) }, none)
      else (s, some DbErr.policyDenied)

/-- INSERT on `labels`: WITH CHECK of "Users can manage labels in their
projects", then `UNIQUE(project_id, name)` and the PRIMARY KEY (the FK to
`projects` is implied by the policy's EXISTS). -/
def insertLabel (s : Store) (uid : Nat) (l : Label) : Store × Option DbErr :=
  if labelsOwnProject s uid l then
    if s.labels.any fun x => x.project_id == l.project_id && x.name == l.name then
      (s, some DbErr.uniqueConstraintViolation)
    else if s.labels.any fun x => x.id == l.id then (s, some DbErr.uniqueConstraintViolation)
    else ({ s with labels := l :: s.labels }, none)
  else (s, some DbErr.policyDenied)

/-- UPDATE on `labels`: USING on the stored row, WITH CHECK on the new row,
and `UNIQUE(project_id, name)` against every other row. -/
def updateLabel (s : Store) (uid : Nat) (new : Label) : Store × Option DbErr :=
  match findLabel s new.id with
  | none => (s, some DbErr.notFound)
  | some old =>
      if labelsOwnProject s uid old then
        if labelsOwnProject s uid new then
          if s.labels.any fun x =>
              !(x.id == new.id) && x.project_id == new.project_id && x.name == new.name then
            (s, some DbErr.uniqueConstraintViolation)
          else
            ({ s with labels := s.labels.map fun x => if x.id == new.id then new else x }, none)
        else (s, some DbErr.policyDenied)
      else (s, some DbErr.policyDenied)

/-- DELETE on `labels`, cascading to annotations that reference the label. -/
def deleteLabel (s : Store) (uid : Nat) (lid : Nat) : Store × Option DbErr :=
  match findLabel s lid with
  | none => (s, some DbErr.notFound)
  | some l =>
      if labelsOwnProject s uid l then
        ({ s with
            labels := s.labels.filter fun x => !(x.id == lid),
            anns := s.anns.filter fun a => !(a.label_id == lid) }, none)
      else (s, some DbErr.policyDenied)

/-- INSERT on `images`: WITH CHECK of "Users can manage images in their
projects" plus the PRIMARY KEY (the FK to `projects` is implied by the
policy's EXISTS). -/
def insertImage (s : Store) (uid : Nat) (i : Image) : Store × Option DbErr :=
  if imagesOwnProject s uid i then
    if s.images.any fun x => x.id == i.id then (s, some DbErr.uniqueConstraintViolation)
    else ({ s with images := i :: s.images }, none)
  else (s, some DbErr.policyDenied)

/-- UPDATE on `images`: USING on the stored row and WITH CHECK on the new row. -/
def updateImage (s : Store) (uid : Nat) (new : Image) : Store × Option DbErr :=
  match findImage s new.id with
  | none => (s, some DbErr.notFound)
  | some old =>
      if imagesOwnProject s uid old then
        if imagesOwnProject s uid new then
          ({ s with images := s.images.map fun x => if x.id == new.id then new else x }, none)
        else (s, some DbErr.policyDenied)
      else (s, some DbErr.policyDenied)

/-- DELETE on `images`, cascading to annotations on the image. -/
def deleteImage (s : Store) (uid : Nat) (iid : Nat) : Store × Option DbErr :=
  match findImage s iid with
  | none => (s, some DbErr.notFound)
  | some i =>
      if imagesOwnProject s uid i then
        ({ s with
            images := s.images.filter fun x => !(x.id == iid),
            anns := s.anns.filter fun a => !(a.image_id == iid) }, none)
      else (s, some DbErr.policyDenied)

/-- INSERT on `annotations`: WITH CHECK of "Users can manage annotations in
their projects" (owning-project creator AND `created_by = auth.uid()`),
then the FK to `labels` and the PRIMARY KEY (the FK to `images` is implied
by the policy's EXISTS). -/
def insertAnn (s : Store) (uid : Nat) (a : Ann) : Store × Option DbErr :=
  if annsCheck s uid a then
    if s.labels.any fun l => l.id == a.label_id then
      if s.anns.any fun x => x.id == a.id then (s, some DbErr.uniqueConstraintViolation)
      else ({ s with anns := a :: s.anns }, none)
    else (s, some DbErr.fkViolation)
  else (s, some DbErr.policyDenied)

/-- UPDATE on `annotations`: USING on the stored row, WITH CHECK on the new
row, and the FK of the new row to `labels`. -/
def updateAnn (s : Store) (uid : Nat) (new : Ann) : Store × Option DbErr :=
  match findAnn s new.id with
  | none => (s, some DbErr.notFound)
  | some old =>
      if annsUsing s uid old then
        if annsCheck s uid new then
          if s.labels.any fun l => l.id == new.label_id then
            ({ s with anns := s.anns.map fun x => if x.id == new.id then new else x }, none)
          else (s, some DbErr.fkViolation)
        else (s, some DbErr.policyDenied)
      else (s, some DbErr.policyDenied)

/-- DELETE on `annotations` (USING of the ALL policy). -/
def deleteAnn (s : Store) (uid : Nat) (aid : Nat) : Store × Option DbErr :=
  match findAnn s aid with
  | none => (s, some DbErr.notFound)
  | some a =>
      if annsUsing s uid a then
        ({ s with anns := s.anns.filter fun x => !(x.id == aid) }, none)
      else (s, some DbErr.policyDenied)

/-- Operation language: every policy-governed write path of the application,
each tagged with the principal issuing it. -/
inductive Op where
  | signup (uid : Nat) (email fullName : String)
  | updateProfile (uid : Nat) (r : Profile)
  | insertProject (uid : Nat) (p : Project)
  | updateProject (uid : Nat) (p : Project)
  | deleteProject (uid : Nat) (pid : Nat)
  | insertMember (uid : Nat) (m : ProjectMember)
  | deleteMember (uid : Nat) (mid : Nat)
  | insertLabel (uid : Nat) (l : Label)
  | updateLabel (uid : Nat) (l : Label)
  | deleteLabel (uid : Nat) (lid : Nat)
  | insertImage (uid : Nat) (i : Image)
  | updateImage (uid : Nat) (i : Image)
  | deleteImage (uid : Nat) (iid : Nat)
  | insertAnn (uid : Nat) (a : Ann)
  | updateAnn (uid : Nat) (a : Ann)
  | deleteAnn (uid : Nat) (aid : Nat)

/-- Effect of one operation on the store; a failed operation (RLS denial or
constraint violation) leaves the store unchanged. -/
def step (s : Store) (op : Op) : Store :=
  match op with
  | .signup uid email fullName => (signup s uid email fullName).1
  | .updateProfile uid r => (updateProfile s uid r).1
  | .insertProject uid p => (insertProject s uid p).1
  | .updateProject uid p => (updateProject s uid p).1
  | .deleteProject uid pid => (deleteProject s uid pid).1
  | .insertMember uid m => (insertMember s uid m).1
  | .deleteMember uid mid => (deleteMember s uid mid).1
  | .insertLabel uid l => (insertLabel s uid l).1
  | .updateLabel uid l => (updateLabel s uid l).1
  | .deleteLabel uid lid => (deleteLabel s uid lid).1
  | .insertImage uid i => (insertImage s uid i).1
  | .updateImage uid i => (updateImage s uid i).1
  | .deleteImage uid iid => (deleteImage s uid iid).1
  | .insertAnn uid a => (insertAnn s uid a).1
  | .updateAnn uid a => (updateAnn s uid a).1
  | .deleteAnn uid aid => (deleteAnn s uid aid).1

/-- Store produced by running a sequence of operations from the empty store. -/
def runOps (ops : List Op) : Store :=
  ops.foldl step emptyStore

/-- States reachable from the empty store through policy-governed operations. -/
def Reachable (s : Store) : Prop :=
  ∃ ops : List Op, runOps ops = s
/-- PRIMARY KEY integrity of `projects`. -/
def projIdsNodup (s : Store) : Prop :=
  (s.projects.map Project.id).Nodup

/-- PRIMARY KEY integrity of `images`. -/
def imageIdsNodup (s : Store) : Prop :=
  (s.images.map Image.id).Nodup

/-- PRIMARY KEY integrity of `labels`. -/
def labelIdsNodup (s : Store) : Prop :=
  (s.labels.map Label.id).Nodup

/-- Schema constraint `UNIQUE(project_id, name)` on `labels`. -/
def labelNamesUnique (s : Store) : Prop :=
  s.labels.Pairwise fun a b => ¬ (a.project_id = b.project_id ∧ a.name = b.name)

/-- FOREIGN KEY integrity: every image references an existing project. -/
def imagesHaveProject (s : Store) : Prop :=
  ∀ i ∈ s.images, ∃ p ∈ s.projects, p.id = i.project_id

/-- FOREIGN KEY integrity: every annotation references an existing image. -/
def annsHaveImage (s : Store) : Prop :=
  ∀ a ∈ s.anns, ∃ i ∈ s.images, i.id = a.image_id

/-- Derived invariant of the final rule set: every annotation's creator is
the creator of its owning project. -/
def annCreatorOwnsProject (s : Store) : Prop :=
  ∀ a ∈ s.anns, ∀ i ∈ s.images, i.id = a.image_id →
    ∀ p ∈ s.projects, p.id = i.project_id → a.created_by = p.created_by

/-- Structural invariants that hold in every reachable store. -/
structure Good (s : Store) : Prop where
  proj_nodup : projIdsNodup s
  image_nodup : imageIdsNodup s
  label_nodup : labelIdsNodup s
  names_unique : labelNamesUnique s
  images_fk : imagesHaveProject s
  anns_fk : annsHaveImage s
  ann_creator : annCreatorOwnsProject s

theorem good_empty : Good emptyStore := by
  constructor <;> simp [emptyStore, projIdsNodup, imageIdsNodup, labelIdsNodup,
    labelNamesUnique, imagesHaveProject, annsHaveImage, annCreatorOwnsProject]

/-- Replacing the row whose id matches leaves the projected id list unchanged. -/
theorem map_id_replace {α : Type} (idf : α → Nat) (n : α) (l : List α) :
    (l.map fun x => if idf x == idf n then n else x).map idf = l.map idf := by
  induction l with
  | nil => rfl
  | cons x xs ih =>
      simp only [List.map_cons, ih]
      by_cases h : idf x = idf n <;> simp [h]

/-- Members of the id-replacement map are either untouched rows or the new row. -/
theorem mem_replace {α : Type} (idf : α → Nat) (n : α) (l : List α) (y : α)
    (hy : y ∈ l.map fun x => if idf x == idf n then n else x) :
    y = n ∨ (y ∈ l ∧ idf y ≠ idf n) := by
  rcases List.mem_map.mp hy with ⟨x, hx, hfx⟩
  by_cases h : idf x = idf n
  · left
    simp [h] at hfx
    exact hfx.symm
  · right
    simp [h] at hfx
    exact hfx ▸ ⟨hx, h⟩
/-- Propositional reading of `hasRole`. -/
theorem hasRole_iff (s : Store) (uid : Nat) (r : Role) :
    hasRole s uid r = true ↔ ∃ p ∈ s.profiles, p.id = uid ∧ p.role = r := by
  simp [hasRole, List.any_eq_true, Bool.and_eq_true, beq_iff_eq, decide_eq_true_eq]

/-- Propositional reading of the project ownership policy. -/
theorem projectsOwn_iff (uid : Nat) (p : Project) :
    projectsOwn uid p = true ↔ p.created_by = uid := by
  simp [projectsOwn, beq_iff_eq]

/-- Propositional reading of the label policy's EXISTS clause. -/
theorem labelsOwnProject_iff (s : Store) (uid : Nat) (l : Label) :
    labelsOwnProject s uid l = true ↔
      ∃ p ∈ s.projects, p.id = l.project_id ∧ p.created_by = uid := by
  simp [labelsOwnProject, List.any_eq_true, Bool.and_eq_true, beq_iff_eq]

/-- Propositional reading of the image policy's EXISTS clause. -/
theorem imagesOwnProject_iff (s : Store) (uid : Nat) (i : Image) :
    imagesOwnProject s uid i = true ↔
      ∃ p ∈ s.projects, p.id = i.project_id ∧ p.created_by = uid := by
  simp [imagesOwnProject, List.any_eq_true, Bool.and_eq_true, beq_iff_eq]

/-- Propositional reading of the annotation policy's USING join. -/
theorem annsUsing_iff (s : Store) (uid : Nat) (a : Ann) :
    annsUsing s uid a = true ↔
      ∃ i ∈ s.images, i.id = a.image_id ∧
        ∃ p ∈ s.projects, p.id = i.project_id ∧ p.created_by = uid := by
  simp [annsUsing, List.any_eq_true, Bool.and_eq_true, beq_iff_eq]

/-- Propositional reading of the annotation policy's WITH CHECK. -/
theorem annsCheck_iff (s : Store) (uid : Nat) (a : Ann) :
    annsCheck s uid a = true ↔
      (∃ i ∈ s.images, i.id = a.image_id ∧
        ∃ p ∈ s.projects, p.id = i.project_id ∧ p.created_by = uid) ∧
      a.created_by = uid := by
  rw [annsCheck, Bool.and_eq_true, annsUsing_iff]
  simp [beq_iff_eq]

/-- Propositional reading of the self-enrollment WITH CHECK. -/
theorem membersSelfEnroll_iff (s : Store) (uid : Nat) (m : ProjectMember) :
    membersSelfEnroll s uid m = true ↔
      (∃ p ∈ s.projects, p.id = m.project_id ∧ p.created_by = uid) ∧ m.user_id = uid := by
  simp [membersSelfEnroll, List.any_eq_true, Bool.and_eq_true, beq_iff_eq]

/-- Stores that agree on projects, labels, images and annotations share `Good`. -/
theorem good_of_eq {s t : Store} (hp : t.projects = s.projects) (hl : t.labels = s.labels)
    (hi : t.images = s.images) (ha : t.anns = s.anns) (h : Good s) : Good t := by
  obtain ⟨h1, h2, h3, h4, h5, h6, h7⟩ := h
  refine ⟨?_, ?_, ?_, ?_, ?_, ?_, ?_⟩ <;>
    simp only [projIdsNodup, imageIdsNodup, labelIdsNodup, labelNamesUnique,
      imagesHaveProject, annsHaveImage, annCreatorOwnsProject, hp, hl, hi, ha] <;>
    assumption

theorem good_signup (s : Store) (uid : Nat) (e f : String) (h : Good s) :
    Good (signup s uid e f).1 := by
  unfold signup
  split
  · exact h
  · refine good_of_eq ?_ ?_ ?_ ?_ h <;> rfl

theorem good_updateProfile (s : Store) (uid : Nat) (r : Profile) (h : Good s) :
    Good (updateProfile s uid r).1 := by
  unfold updateProfile
  split
  · exact h
  · split
    · refine good_of_eq ?_ ?_ ?_ ?_ h <;> rfl
    · exact h

theorem good_insertMember (s : Store) (uid : Nat) (m : ProjectMember) (h : Good s) :
    Good (insertMember s uid m).1 := by
  unfold insertMember
  split
  · split
    · split
      · exact h
      · split
        · exact h
        · refine good_of_eq ?_ ?_ ?_ ?_ h <;> rfl
    · exact h
  · exact h

theorem good_deleteMember (s : Store) (uid : Nat) (mid : Nat) (h : Good s) :
    Good (deleteMember s uid mid).1 := by
  unfold deleteMember
  split
  · exact h
  · split
    · refine good_of_eq ?_ ?_ ?_ ?_ h <;> rfl
    · exact h
/-- Replacing a row by id does not change that row's id projection. -/
theorem id_replace_eq {α : Type} (idf : α → Nat) (n x : α) :
    idf (if idf x == idf n then n else x) = idf x := by
  by_cases h : idf x = idf n <;> simp [h]

theorem good_insertProject (s : Store) (uid : Nat) (p : Project) (h : Good s) :
    Good (insertProject s uid p).1 := by
  unfold insertProject
  split
  · split
    · exact h
    · rename_i hown hfresh
      have hfresh' : ∀ q ∈ s.projects, q.id ≠ p.id := by
        simpa [List.any_eq_false, beq_iff_eq] using hfresh
      obtain ⟨h1, h2, h3, h4, h5, h6, h7⟩ := h
      refine ⟨?_, h2, h3, h4, ?_, h6, ?_⟩
      · simp only [projIdsNodup, List.map_cons, List.nodup_cons]
        refine ⟨fun hmem => ?_, h1⟩
        obtain ⟨q, hq, hqid⟩ := List.mem_map.mp hmem
        exact hfresh' q hq hqid
      · intro i hi
        obtain ⟨q, hq, hqid⟩ := h5 i hi
        exact ⟨q, List.mem_cons_of_mem _ hq, hqid⟩
      · intro a ha i hi hiid q hq hqid
        rcases List.mem_cons.mp hq with hq | hq
        · subst hq
          obtain ⟨p0, hp0, hp0id⟩ := h5 i hi
          exact absurd (hp0id.trans hqid.symm) (hfresh' p0 hp0)
        · exact h7 a ha i hi hiid q hq hqid
  · exact h

theorem good_updateProject (s : Store) (uid : Nat) (new : Project) (h : Good s) :
    Good (updateProject s uid new).1 := by
  unfold updateProject
  split
  · exact h
  · rename_i old hfind
    split
    · split
      · rename_i hu hc
        have holdmem : old ∈ s.projects := List.mem_of_find?_eq_some hfind
        have holdid : old.id = new.id := by
          have := List.find?_some hfind
          simpa [beq_iff_eq] using this
        have hucr : old.created_by = uid := (projectsOwn_iff uid old).mp hu
        have hccr : new.created_by = uid := (projectsOwn_iff uid new).mp hc
        obtain ⟨h1, h2, h3, h4, h5, h6, h7⟩ := h
        refine ⟨?_, h2, h3, h4, ?_, h6, ?_⟩
        · simp only [projIdsNodup, map_id_replace]
          exact h1
        · intro i hi
          obtain ⟨q, hq, hqid⟩ := h5 i hi
          refine ⟨if q.id == new.id then new else q, List.mem_map_of_mem _ hq, ?_⟩
          exact (id_replace_eq Project.id new q).trans hqid
        · intro a ha i hi hiid q hq hqid
          rcases mem_replace Project.id new s.projects q hq with hqn | ⟨hqmem, hqne⟩
          · subst hqn
            have : old.id = i.project_id := by rw [holdid]; exact hqid
            have := h7 a ha i hi hiid old holdmem this
            rw [this, hucr, hccr]
          · exact h7 a ha i hi hiid q hqmem hqid
      · exact h
    · exact h

theorem good_deleteProject (s : Store) (uid : Nat) (pid : Nat) (h : Good s) :
    Good (deleteProject s uid pid).1 := by
  unfold deleteProject
  split
  · exact h
  · split
    · obtain ⟨h1, h2, h3, h4, h5, h6, h7⟩ := h
      refine ⟨?_, ?_, ?_, ?_, ?_, ?_, ?_⟩
      · exact List.Nodup.sublist ((List.filter_sublist _).map _) h1
      · exact List.Nodup.sublist ((List.filter_sublist _).map _) h2
      · exact List.Nodup.sublist ((List.filter_sublist _).map _) h3
      · exact List.Pairwise.sublist (List.filter_sublist _) h4
      · intro i hi
        rw [List.mem_filter] at hi
        obtain ⟨himem, hikeep⟩ := hi
        have hipid : i.project_id ≠ pid := by simpa [beq_iff_eq] using hikeep
        obtain ⟨q, hq, hqid⟩ := h5 i himem
        refine ⟨q, List.mem_filter.mpr ⟨hq, ?_⟩, hqid⟩
        simpa [beq_iff_eq] using hqid ▸ hipid
      · intro a ha
        rw [List.mem_filter] at ha
        obtain ⟨hamem, hakeep⟩ := ha
        rw [Bool.and_eq_true] at hakeep
        have hnoimg : ∀ i ∈ s.images, ¬(i.project_id = pid ∧ i.id = a.image_id) := by
          have := hakeep.1
          simpa [List.any_eq_false, beq_iff_eq] using this
        obtain ⟨i0, hi0, hi0id⟩ := h6 a hamem
        have hi0pid : i0.project_id ≠ pid := by
          intro hcontra
          exact hnoimg i0 hi0 ⟨hcontra, hi0id⟩
        refine ⟨i0, List.mem_filter.mpr ⟨hi0, ?_⟩, hi0id⟩
        simpa [beq_iff_eq] using hi0pid
      · intro a ha i hi hiid q hq hqid
        exact h7 a (List.mem_of_mem_filter ha) i (List.mem_of_mem_filter hi) hiid
          q (List.mem_of_mem_filter hq) hqid
    · exact h
theorem good_insertLabel (s : Store) (uid : Nat) (l : Label) (h : Good s) :
    Good (insertLabel s uid l).1 := by
  unfold insertLabel
  split
  · split
    · exact h
    · split
      · exact h
      · rename_i hown hname hid
        have hname' : ∀ x ∈ s.labels, ¬(x.project_id = l.project_id ∧ x.name = l.name) := by
          intro x hx hcontra
          have hwit : (s.labels.any fun x => x.project_id == l.project_id && x.name == l.name)
              = true :=
            List.any_eq_true.mpr ⟨x, hx, by simp [beq_iff_eq, hcontra.1, hcontra.2]⟩
          exact hname hwit
        have hid' : ∀ x ∈ s.labels, x.id ≠ l.id := by
          simpa [List.any_eq_false, beq_iff_eq] using hid
        obtain ⟨h1, h2, h3, h4, h5, h6, h7⟩ := h
        refine ⟨h1, h2, ?_, ?_, h5, h6, h7⟩
        · simp only [labelIdsNodup, List.map_cons, List.nodup_cons]
          refine ⟨fun hmem => ?_, h3⟩
          obtain ⟨x, hx, hxid⟩ := List.mem_map.mp hmem
          exact hid' x hx hxid
        · refine List.pairwise_cons.mpr ⟨fun b hb hcontra => ?_, h4⟩
          exact hname' b hb ⟨hcontra.1.symm, hcontra.2.symm⟩
  · exact h

theorem good_updateLabel (s : Store) (uid : Nat) (new : Label) (h : Good s) :
    Good (updateLabel s uid new).1 := by
  unfold updateLabel
  split
  · exact h
  · rename_i old hfind
    split
    · split
      · split
        · exact h
        · rename_i hu hc hconf
          have hconf' : ∀ x ∈ s.labels, x.id ≠ new.id →
              ¬(x.project_id = new.project_id ∧ x.name = new.name) := by
            intro x hx hne hcontra
            have hwit : (s.labels.any fun x =>
                !(x.id == new.id) && x.project_id == new.project_id && x.name == new.name)
                = true :=
              List.any_eq_true.mpr ⟨x, hx, by simp [beq_iff_eq, hne, hcontra.1, hcontra.2]⟩
            exact hconf hwit
          obtain ⟨h1, h2, h3, h4, h5, h6, h7⟩ := h
          have h3' : s.labels.Pairwise fun a b => a.id ≠ b.id := by
            rw [labelIdsNodup, List.Nodup, List.pairwise_map] at h3
            exact h3
          refine ⟨h1, h2, ?_, ?_, h5, h6, h7⟩
          · simp only [labelIdsNodup, map_id_replace]
            exact h3
          · simp only [labelNamesUnique, List.pairwise_map]
            refine List.Pairwise.imp_of_mem ?_ (h3'.and h4)
            intro a b ha hb hab
            obtain ⟨hne, hnames⟩ := hab
            by_cases hA : a.id = new.id <;> by_cases hB : b.id = new.id
            · exact absurd (hA.trans hB.symm) hne
            · simp only [beq_iff_eq, hA, if_pos rfl, if_neg hB]
              intro hcontra
              exact hconf' b hb hB ⟨hcontra.1.symm, hcontra.2.symm⟩
            · simp only [beq_iff_eq, if_neg hA, hB, if_pos rfl]
              intro hcontra
              exact hconf' a ha hA hcontra
            · simp only [beq_iff_eq, if_neg hA, if_neg hB]
              exact hnames
      · exact h
    · exact h

theorem good_deleteLabel (s : Store) (uid : Nat) (lid : Nat) (h : Good s) :
    Good (deleteLabel s uid lid).1 := by
  unfold deleteLabel
  split
  · exact h
  · split
    · obtain ⟨h1, h2, h3, h4, h5, h6, h7⟩ := h
      refine ⟨h1, h2, ?_, ?_, h5, ?_, ?_⟩
      · exact List.Nodup.sublist ((List.filter_sublist _).map _) h3
      · exact List.Pairwise.sublist (List.filter_sublist _) h4
      · intro a ha
        exact h6 a (List.mem_of_mem_filter ha)
      · intro a ha i hi hiid q hq hqid
        exact h7 a (List.mem_of_mem_filter ha) i hi hiid q hq hqid
    · exact h
theorem good_insertImage (s : Store) (uid : Nat) (i : Image) (h : Good s) :
    Good (insertImage s uid i).1 := by
  unfold insertImage
  split
  · split
    · exact h
    · rename_i hchk hfresh
      have hfresh' : ∀ x ∈ s.images, x.id ≠ i.id := by
        simpa [List.any_eq_false, beq_iff_eq] using hfresh
      obtain ⟨h1, h2, h3, h4, h5, h6, h7⟩ := h
      obtain ⟨p0, hp0, hp0id, hp0cr⟩ := (imagesOwnProject_iff s uid i).mp hchk
      refine ⟨h1, ?_, h3, h4, ?_, ?_, ?_⟩
      · simp only [imageIdsNodup, List.map_cons, List.nodup_cons]
        refine ⟨fun hmem => ?_, h2⟩
        obtain ⟨x, hx, hxid⟩ := List.mem_map.mp hmem
        exact hfresh' x hx hxid
      · intro j hj
        rcases List.mem_cons.mp hj with hj | hj
        · subst hj
          exact ⟨p0, hp0, hp0id⟩
        · exact h5 j hj
      · intro a ha
        obtain ⟨i0, hi0, hi0id⟩ := h6 a ha
        exact ⟨i0, List.mem_cons_of_mem _ hi0, hi0id⟩
      · intro a ha j hj hjid q hq hqid
        rcases List.mem_cons.mp hj with hj | hj
        · subst hj
          obtain ⟨i0, hi0, hi0id⟩ := h6 a ha
          exact absurd (hi0id.trans hjid.symm) (hfresh' i0 hi0)
        · exact h7 a ha j hj hjid q hq hqid
  · exact h

theorem good_updateImage (s : Store) (uid : Nat) (new : Image) (h : Good s) :
    Good (updateImage s uid new).1 := by
  unfold updateImage
  split
  · exact h
  · rename_i old hfind
    split
    · split
      · rename_i hu hc
        have holdmem : old ∈ s.images := List.mem_of_find?_eq_some hfind
        have holdid : old.id = new.id := by
          have := List.find?_some hfind
          simpa [beq_iff_eq] using this
        obtain ⟨pold, hpold, hpoldid, hpoldcr⟩ := (imagesOwnProject_iff s uid old).mp hu
        obtain ⟨pnew, hpnew, hpnewid, hpnewcr⟩ := (imagesOwnProject_iff s uid new).mp hc
        obtain ⟨h1, h2, h3, h4, h5, h6, h7⟩ := h
        refine ⟨h1, ?_, h3, h4, ?_, ?_, ?_⟩
        · simp only [imageIdsNodup, map_id_replace]
          exact h2
        · intro j hj
          rcases mem_replace Image.id new s.images j hj with hjn | ⟨hjmem, _⟩
          · subst hjn
            exact ⟨pnew, hpnew, hpnewid⟩
          · exact h5 j hjmem
        · intro a ha
          obtain ⟨i0, hi0, hi0id⟩ := h6 a ha
          refine ⟨if i0.id == new.id then new else i0, List.mem_map_of_mem _ hi0, ?_⟩
          exact (id_replace_eq Image.id new i0).trans hi0id
        · intro a ha j hj hjid q hq hqid
          rcases mem_replace Image.id new s.images j hj with hjn | ⟨hjmem, _⟩
          · subst hjn
            have haid : old.id = a.image_id := holdid.trans hjid
            have hacr : a.created_by = pold.created_by := h7 a ha old holdmem haid pold hpold hpoldid
            have hq_eq : q = pnew :=
              List.inj_on_of_nodup_map h1 hq hpnew (hqid.trans hpnewid.symm)
            rw [hq_eq, hpnewcr, hacr, hpoldcr]
          · exact h7 a ha j hjmem hjid q hq hqid
      · exact h
    · exact h

theorem good_deleteImage (s : Store) (uid : Nat) (iid : Nat) (h : Good s) :
    Good (deleteImage s uid iid).1 := by
  unfold deleteImage
  split
  · exact h
  · split
    · obtain ⟨h1, h2, h3, h4, h5, h6, h7⟩ := h
      refine ⟨h1, ?_, h3, h4, ?_, ?_, ?_⟩
      · exact List.Nodup.sublist ((List.filter_sublist _).map _) h2
      · intro j hj
        exact h5 j (List.mem_of_mem_filter hj)
      · intro a ha
        rw [List.mem_filter] at ha
        obtain ⟨hamem, hakeep⟩ := ha
        have haid : a.image_id ≠ iid := by simpa [beq_iff_eq] using hakeep
        obtain ⟨i0, hi0, hi0id⟩ := h6 a hamem
        refine ⟨i0, List.mem_filter.mpr ⟨hi0, ?_⟩, hi0id⟩
        simpa [beq_iff_eq] using hi0id ▸ haid
      · intro a ha j hj hjid q hq hqid
        exact h7 a (List.mem_of_mem_filter ha) j (List.mem_of_mem_filter hj) hjid q hq hqid
    · exact h

theorem good_insertAnn (s : Store) (uid : Nat) (a : Ann) (h : Good s) :
    Good (insertAnn s uid a).1 := by
  unfold insertAnn
  split
  · split
    · split
      · exact h
      · rename_i hchk hlbl hfresh
        obtain ⟨⟨i0, hi0, hi0id, p0, hp0, hp0id, hp0cr⟩, hacr⟩ := (annsCheck_iff s uid a).mp hchk
        obtain ⟨h1, h2, h3, h4, h5, h6, h7⟩ := h
        refine ⟨h1, h2, h3, h4, h5, ?_, ?_⟩
        · intro b hb
          rcases List.mem_cons.mp hb with hb | hb
          · subst hb
            exact ⟨i0, hi0, hi0id⟩
          · exact h6 b hb
        · intro b hb j hj hjid q hq hqid
          rcases List.mem_cons.mp hb with hb | hb
          · subst hb
            have hj_eq : j = i0 := List.inj_on_of_nodup_map h2 hj hi0 (hjid.trans hi0id.symm)
            have hq_eq : q = p0 :=
              List.inj_on_of_nodup_map h1 hq hp0 (hqid.trans (hj_eq ▸ hp0id.symm))
            rw [hq_eq, hp0cr, hacr]
          · exact h7 b hb j hj hjid q hq hqid
    · exact h
  · exact h

theorem good_updateAnn (s : Store) (uid : Nat) (new : Ann) (h : Good s) :
    Good (updateAnn s uid new).1 := by
  unfold updateAnn
  split
  · exact h
  · split
    · split
      · split
        · rename_i hu hc hlbl
          obtain ⟨⟨i0, hi0, hi0id, p0, hp0, hp0id, hp0cr⟩, hacr⟩ := (annsCheck_iff s uid new).mp hc
          obtain ⟨h1, h2, h3, h4, h5, h6, h7⟩ := h
          refine ⟨h1, h2, h3, h4, h5, ?_, ?_⟩
          · intro b hb
            rcases mem_replace Ann.id new s.anns b hb with hbn | ⟨hbmem, _⟩
            · subst hbn
              exact ⟨i0, hi0, hi0id⟩
            · exact h6 b hbmem
          · intro b hb j hj hjid q hq hqid
            rcases mem_replace Ann.id new s.anns b hb with hbn | ⟨hbmem, _⟩
            · subst hbn
              have hj_eq : j = i0 := List.inj_on_of_nodup_map h2 hj hi0 (hjid.trans hi0id.symm)
              have hq_eq : q = p0 :=
                List.inj_on_of_nodup_map h1 hq hp0 (hqid.trans (hj_eq ▸ hp0id.symm))
              rw [hq_eq, hp0cr, hacr]
            · exact h7 b hbmem j hj hjid q hq hqid
        · exact h
      · exact h
    · exact h

theorem good_deleteAnn (s : Store) (uid : Nat) (aid : Nat) (h : Good s) :
    Good (deleteAnn s uid aid).1 := by
  unfold deleteAnn
  split
  · exact h
  · split
    · obtain ⟨h1, h2, h3, h4, h5, h6, h7⟩ := h
      refine ⟨h1, h2, h3, h4, h5, ?_, ?_⟩
      · intro b hb
        exact h6 b (List.mem_of_mem_filter hb)
      · intro b hb j hj hjid q hq hqid
        exact h7 b (List.mem_of_mem_filter hb) j hj hjid q hq hqid
    · exact h

/-- Every storage operation preserves the structural invariants. -/
theorem good_step (s : Store) (op : Op) (h : Good s) : Good (step s op) := by
  cases op with
  | signup uid e f => exact good_signup s uid e f h
  | updateProfile uid r => exact good_updateProfile s uid r h
  | insertProject uid p => exact good_insertProject s uid p h
  | updateProject uid p => exact good_updateProject s uid p h
  | deleteProject uid pid => exact good_deleteProject s uid pid h
  | insertMember uid m => exact good_insertMember s uid m h
  | deleteMember uid mid => exact good_deleteMember s uid mid h
  | insertLabel uid l => exact good_insertLabel s uid l h
  | updateLabel uid l => exact good_updateLabel s uid l h
  | deleteLabel uid lid => exact good_deleteLabel s uid lid h
  | insertImage uid i => exact good_insertImage s uid i h
  | updateImage uid i => exact good_updateImage s uid i h
  | deleteImage uid iid => exact good_deleteImage s uid iid h
  | insertAnn uid a => exact good_insertAnn s uid a h
  | updateAnn uid a => exact good_updateAnn s uid a h
  | deleteAnn uid aid => exact good_deleteAnn s uid aid h

theorem good_foldl (ops : List Op) (s : Store) (h : Good s) : Good (ops.foldl step s) := by
  induction ops generalizing s with
  | nil => exact h
  | cons op rest ih => exact ih (step s op) (good_step s op h)

/-- Every reachable store satisfies the structural invariants. -/
theorem reachable_good (s : Store) (h : Reachable s) : Good s := by
  obtain ⟨ops, hops⟩ := h
  rw [← hops]
  exact good_foldl ops emptyStore good_empty
/-- Store with two profiles (an annotator who created everything and a
reviewer), one project, one label, one image and one annotation. -/
def sC1 : Store :=
  { profiles := [⟨1, "u1@x", "U1", Role.annotator⟩, ⟨3, "u3@x", "U3", Role.reviewer⟩],
    projects := [⟨10, "p1", 1, ProjectStatus.active⟩],
    members := [],
    labels := [⟨40, 10, "cat", "#3B82F6", AnnType.bounding_box⟩],
    images := [⟨20, 10, "img.png", ImageStatus.pending, none, 1⟩],
    anns := [⟨30, 20, 40, "data", AnnType.bounding_box, 1, none, none⟩] }

/-- Store with an annotator who created a project and an unrelated admin. -/
def sC2 : Store :=
  { profiles := [⟨1, "u1@x", "U1", Role.annotator⟩, ⟨2, "u2@x", "U2", Role.admin⟩],
    projects := [⟨10, "p1", 1, ProjectStatus.active⟩],
    members := [], labels := [], images := [], anns := [] }

/-- Store with a dangling label, image and annotation: the owning project
row (id 99) is absent. -/
def sC6 : Store :=
  { profiles := [], projects := [], members := [],
    labels := [⟨40, 99, "dangling", "#3B82F6", AnnType.mask⟩],
    images := [⟨20, 99, "img.png", ImageStatus.pending, none, 1⟩],
    anns := [⟨30, 20, 40, "data", AnnType.mask, 1, none, none⟩] }

/-- Disjunction of the allow conditions of the final rule set for one
(entity kind, action), as read off the remaining policies. -/
def ruleCond (s : Store) (uid : Nat) (act : Act) (k : EntityKind) (eid : Nat) : Prop :=
  match k with
  | .profile => (act = Act.select ∨ act = Act.update) ∧
      ∃ r ∈ s.profiles, r.id = eid ∧ uid = r.id
  | .project => ∃ p ∈ s.projects, p.id = eid ∧ p.created_by = uid
  | .member => ∃ m ∈ s.members, m.id = eid ∧
      (hasRole s uid Role.admin = true ∨
        (act = Act.select ∧ m.user_id = uid) ∨
        (act = Act.insert ∧ (∃ p ∈ s.projects, p.id = m.project_id ∧ p.created_by = uid) ∧
          m.user_id = uid))
  | .label => ∃ l ∈ s.labels, l.id = eid ∧
      ∃ p ∈ s.projects, p.id = l.project_id ∧ p.created_by = uid
  | .image => ∃ i ∈ s.images, i.id = eid ∧
      ∃ p ∈ s.projects, p.id = i.project_id ∧ p.created_by = uid
  | .ann => ∃ a ∈ s.anns, a.id = eid ∧
      (∃ i ∈ s.images, i.id = a.image_id ∧
        ∃ p ∈ s.projects, p.id = i.project_id ∧ p.created_by = uid) ∧
      (act = Act.insert → a.created_by = uid)

/-- Authorization on a project id, read propositionally (needs primary-key
integrity of `projects` so that lookup and existence agree). -/
theorem authorize_project_iff (s : Store) (uid pid : Nat) (act : Act)
    (hnodup : (s.projects.map Project.id).Nodup) :
    authorize s uid act EntityKind.project pid = true ↔
      ∃ p ∈ s.projects, p.id = pid ∧ p.created_by = uid := by
  unfold authorize
  cases hf : findProject s pid with
  | none =>
      simp only []
      constructor
      · intro h
        exact absurd h (by simp)
      · rintro ⟨p, hp, hpid, _⟩
        have := List.find?_eq_none.mp hf p hp
        simp [beq_iff_eq] at this
        exact absurd hpid this
  | some p =>
      have hpmem : p ∈ s.projects := List.mem_of_find?_eq_some hf
      have hpid : p.id = pid := by
        have := List.find?_some hf
        simpa [beq_iff_eq] using this
      simp only [projectsOwn, beq_iff_eq]
      constructor
      · intro h
        exact ⟨p, hpmem, hpid, h⟩
      · rintro ⟨q, hq, hqid, hqcr⟩
        have : q = p := List.inj_on_of_nodup_map hnodup hq hpmem (hqid.trans hpid.symm)
        rw [← this]
        exact hqcr
/-- C1 (counterexample): the claim as stated is false on the final rule
set.  In `sC1`, principal 3 holds the global role `reviewer` and is not
the creator of project 10 (whose creator is 1), yet SELECT and UPDATE on
annotation 30 are both DENY: the last migration dropped the policies that
granted reviewers and admins access to annotations. -/
theorem C1_counterexample :
    hasRole sC1 3 Role.reviewer = true ∧
    (∀ p ∈ sC1.projects, p.created_by ≠ 3) ∧
    authorize sC1 3 Act.select EntityKind.ann 30 = false ∧
    authorize sC1 3 Act.update EntityKind.ann 30 = false := by
  decide

/-- C1 (amended): under the final rule set, SELECT/UPDATE on an annotation
is allowed exactly when the principal is the creator of the owning project
(through the image join); global roles and annotation creatorship play no
part.  The deny half of the original claim is the right-to-left reading. -/
theorem C1_annotation_access (s : Store) (uid : Nat) (aid : Nat) (a : Ann)
    (hfind : findAnn s aid = some a) (act : Act)
    (hact : act = Act.select ∨ act = Act.update) :
    authorize s uid act EntityKind.ann aid = true ↔
      ∃ i ∈ s.images, i.id = a.image_id ∧
        ∃ p ∈ s.projects, p.id = i.project_id ∧ p.created_by = uid := by
  have h : authorize s uid act EntityKind.ann aid = annsUsing s uid a := by
    rcases hact with h | h <;> subst h <;> simp [authorize, hfind]
  rw [h, annsUsing_iff]

/-- C1 (witness): the amended theorem applied to the creator of the owning
project in `sC1`. -/
theorem C1_witness : authorize sC1 1 Act.select EntityKind.ann 30 = true :=
  (C1_annotation_access sC1 1 30 ⟨30, 20, 40, "data", AnnType.bounding_box, 1, none, none⟩
    (by decide) Act.select (Or.inl rfl)).mpr (by decide)

/-- C2 (counterexample): the claim's "denied for every principal,
regardless of global role" is false.  In `sC2`, principal 2 is an admin,
did not create project 10 (creator 1), and inserts a membership row for a
third user 3: the surviving policy "Admins can manage project members"
allows it, and the insert succeeds. -/
theorem C2_counterexample :
    hasRole sC2 2 Role.admin = true ∧
    (∀ p ∈ sC2.projects, p.created_by ≠ 2) ∧
    (⟨50, 10, 3, Role.annotator⟩ : ProjectMember).user_id ≠ 2 ∧
    membersInsertAllowed sC2 2 ⟨50, 10, 3, Role.annotator⟩ = true ∧
    (insertMember sC2 2 ⟨50, 10, 3, Role.annotator⟩).2 = none := by
  decide

/-- C2 (amended): a ProjectMembership INSERT is allowed iff the principal
holds the global role admin, or the row is a self-enrollment (`user_id`
equals the principal) into a project the principal created.  For
principals without the admin role the original claim's allow/deny split
is exact. -/
theorem C2_membership_insert (s : Store) (uid : Nat) (m : ProjectMember) :
    membersInsertAllowed s uid m = true ↔
      hasRole s uid Role.admin = true ∨
        ((∃ p ∈ s.projects, p.id = m.project_id ∧ p.created_by = uid) ∧ m.user_id = uid) := by
  rw [membersInsertAllowed, Bool.or_eq_true, membersAdmin, membersSelfEnroll_iff]

/-- C3: an annotation INSERT passes the WITH CHECK exactly when the
principal created the owning project and the payload's `created_by` is the
principal; in particular a payload with a different `created_by` is
rejected with a policy denial and the store is unchanged, even for the
project creator. -/
theorem C3_annotation_insert (s : Store) (uid : Nat) (a : Ann) :
    (annsCheck s uid a = true ↔
      (∃ i ∈ s.images, i.id = a.image_id ∧
        ∃ p ∈ s.projects, p.id = i.project_id ∧ p.created_by = uid) ∧
      a.created_by = uid) ∧
    (a.created_by ≠ uid → insertAnn s uid a = (s, some DbErr.policyDenied)) := by
  refine ⟨annsCheck_iff s uid a, fun hne => ?_⟩
  have hfalse : annsCheck s uid a = false := by
    rcases Bool.eq_false_or_eq_true (annsCheck s uid a) with h | h
    · exact absurd ((annsCheck_iff s uid a).mp h).2 hne
    · exact h
  unfold insertAnn
  rw [hfalse]
  simp

/-- C3 (witness): in `sC1` the creator of project 10 tries to insert an
annotation whose `created_by` is another user; the insert is denied. -/
theorem C3_witness :
    insertAnn sC1 1 ⟨31, 20, 40, "d", AnnType.bounding_box, 2, none, none⟩
      = (sC1, some DbErr.policyDenied) :=
  (C3_annotation_insert sC1 1 ⟨31, 20, 40, "d", AnnType.bounding_box, 2, none, none⟩).2
    (by decide)

/-- C4: the creator of a project is allowed SELECT/UPDATE/DELETE on it, and
every other principal — whatever their global role — is denied, under the
sole surviving policy "Users can manage their own projects". -/
theorem C4_project_access (s : Store) (P : Project) (act : Act)
    (hfind : findProject s P.id = some P)
    (_hact : act = Act.select ∨ act = Act.update ∨ act = Act.delete) :
    authorize s P.created_by act EntityKind.project P.id = true ∧
      ∀ q : Nat, q ≠ P.created_by → authorize s q act EntityKind.project P.id = false := by
  constructor
  · simp [authorize, hfind, projectsOwn]
  · intro q hq
    simp only [authorize, hfind, projectsOwn, beq_eq_false_iff_ne, ne_eq]
    exact fun h => hq h.symm

/-- C4 (witness): in `sC1`, creator 1 may update project 10 and the
reviewer 3 may not. -/
theorem C4_witness :
    authorize sC1 1 Act.update EntityKind.project 10 = true ∧
      authorize sC1 3 Act.update EntityKind.project 10 = false := by
  have h := C4_project_access sC1 ⟨10, "p1", 1, ProjectStatus.active⟩ Act.update
    (by decide) (Or.inr (Or.inl rfl))
  exact ⟨h.1, h.2 3 (by decide)⟩
/-- C5: for a stored label or image, authorization for any action is
equivalent to authorization on the owning project — the creator check
transits exactly one level through the ownership graph. -/
theorem C5_ownership_transit (s : Store) (uid : Nat) (act : Act)
    (hnodup : (s.projects.map Project.id).Nodup) :
    (∀ L : Label, findLabel s L.id = some L →
      (authorize s uid act EntityKind.label L.id = true ↔
        authorize s uid act EntityKind.project L.project_id = true)) ∧
    (∀ im : Image, findImage s im.id = some im →
      (authorize s uid act EntityKind.image im.id = true ↔
        authorize s uid act EntityKind.project im.project_id = true)) := by
  constructor
  · intro L hf
    have hl : authorize s uid act EntityKind.label L.id = labelsOwnProject s uid L := by
      simp [authorize, hf]
    rw [hl, labelsOwnProject_iff, authorize_project_iff s uid L.project_id act hnodup]
  · intro im hf
    have hi : authorize s uid act EntityKind.image im.id = imagesOwnProject s uid im := by
      simp [authorize, hf]
    rw [hi, imagesOwnProject_iff, authorize_project_iff s uid im.project_id act hnodup]

/-- C5 (witness): in `sC1` the creator may delete label 40, equivalently
to their access to project 10. -/
theorem C5_witness : authorize sC1 1 Act.delete EntityKind.label 40 = true :=
  ((C5_ownership_transit sC1 1 Act.delete (by decide)).1
    ⟨40, 10, "cat", "#3B82F6", AnnType.bounding_box⟩ (by decide)).mpr (by decide)
/-- C6: a dependent entity whose owning project row is absent is denied for
every principal and action, and in general an authorization can only
succeed when one of the allow conditions of the final rule set holds —
DENY is the default. -/
theorem C6_default_deny (s : Store) (uid : Nat) (act : Act) :
    (∀ lid l, findLabel s lid = some l → (∀ p ∈ s.projects, p.id ≠ l.project_id) →
      authorize s uid act EntityKind.label lid = false) ∧
    (∀ iid i, findImage s iid = some i → (∀ p ∈ s.projects, p.id ≠ i.project_id) →
      authorize s uid act EntityKind.image iid = false) ∧
    (∀ aid a, findAnn s aid = some a →
      (∀ i ∈ s.images, i.id = a.image_id → ∀ p ∈ s.projects, p.id ≠ i.project_id) →
      authorize s uid act EntityKind.ann aid = false) ∧
    (∀ k eid, authorize s uid act k eid = true → ruleCond s uid act k eid) := by
  refine ⟨?_, ?_, ?_, ?_⟩
  · intro lid l hf hd
    have hrw : authorize s uid act EntityKind.label lid = labelsOwnProject s uid l := by
      simp [authorize, hf]
    rw [hrw]
    rcases Bool.eq_false_or_eq_true (labelsOwnProject s uid l) with h | h
    · obtain ⟨p, hp, hpid, _⟩ := (labelsOwnProject_iff s uid l).mp h
      exact absurd hpid (hd p hp)
    · exact h
  · intro iid i hf hd
    have hrw : authorize s uid act EntityKind.image iid = imagesOwnProject s uid i := by
      simp [authorize, hf]
    rw [hrw]
    rcases Bool.eq_false_or_eq_true (imagesOwnProject s uid i) with h | h
    · obtain ⟨p, hp, hpid, _⟩ := (imagesOwnProject_iff s uid i).mp h
      exact absurd hpid (hd p hp)
    · exact h
  · intro aid a hf hd
    have husing : annsUsing s uid a = false := by
      rcases Bool.eq_false_or_eq_true (annsUsing s uid a) with h | h
      · obtain ⟨i, hi, hiid, p, hp, hpid, _⟩ := (annsUsing_iff s uid a).mp h
        exact absurd hpid (hd i hi hiid p hp)
      · exact h
    have hcheck : annsCheck s uid a = false := by
      rw [annsCheck, husing]
      rfl
    cases act <;> simp [authorize, hf, husing, hcheck]
  · intro k eid h
    cases k with
    | profile =>
        cases hf : findProfile s eid with
        | none => simp [authorize, hf] at h
        | some r =>
            have hmem : r ∈ s.profiles := List.mem_of_find?_eq_some hf
            have hid : r.id = eid := by
              have := List.find?_some hf
              simpa [beq_iff_eq] using this
            cases act with
            | select =>
                simp only [authorize, hf, profilesOwn, beq_iff_eq] at h
                exact ⟨Or.inl rfl, r, hmem, hid, h⟩
            | update =>
                simp only [authorize, hf, profilesOwn, beq_iff_eq] at h
                exact ⟨Or.inr rfl, r, hmem, hid, h⟩
            | insert => simp [authorize, hf] at h
            | delete => simp [authorize, hf] at h
    | project =>
        cases hf : findProject s eid with
        | none => simp [authorize, hf] at h
        | some p =>
            have hmem : p ∈ s.projects := List.mem_of_find?_eq_some hf
            have hid : p.id = eid := by
              have := List.find?_some hf
              simpa [beq_iff_eq] using this
            simp only [authorize, hf, projectsOwn, beq_iff_eq] at h
            exact ⟨p, hmem, hid, h⟩
    | member =>
        cases hf : findMember s eid with
        | none => simp [authorize, hf] at h
        | some m =>
            have hmem : m ∈ s.members := List.mem_of_find?_eq_some hf
            have hid : m.id = eid := by
              have := List.find?_some hf
              simpa [beq_iff_eq] using this
            cases act with
            | select =>
                simp only [authorize, hf, Bool.or_eq_true] at h
                rcases h with h | h
                · exact ⟨m, hmem, hid, Or.inl h⟩
                · have : m.user_id = uid := by simpa [membersOwn, beq_iff_eq] using h
                  exact ⟨m, hmem, hid, Or.inr (Or.inl ⟨rfl, this⟩)⟩
            | insert =>
                simp only [authorize, hf, membersInsertAllowed, Bool.or_eq_true] at h
                rcases h with h | h
                · exact ⟨m, hmem, hid, Or.inl h⟩
                · obtain ⟨hproj, huser⟩ := (membersSelfEnroll_iff s uid m).mp h
                  exact ⟨m, hmem, hid, Or.inr (Or.inr ⟨rfl, hproj, huser⟩)⟩
            | update =>
                simp only [authorize, hf] at h
                exact ⟨m, hmem, hid, Or.inl h⟩
            | delete =>
                simp only [authorize, hf] at h
                exact ⟨m, hmem, hid, Or.inl h⟩
    | label =>
        cases hf : findLabel s eid with
        | none => simp [authorize, hf] at h
        | some l =>
            have hmem : l ∈ s.labels := List.mem_of_find?_eq_some hf
            have hid : l.id = eid := by
              have := List.find?_some hf
              simpa [beq_iff_eq] using this
            have hrw : authorize s uid act EntityKind.label eid = labelsOwnProject s uid l := by
              simp [authorize, hf]
            rw [hrw, labelsOwnProject_iff] at h
            exact ⟨l, hmem, hid, h⟩
    | image =>
        cases hf : findImage s eid with
        | none => simp [authorize, hf] at h
        | some i =>
            have hmem : i ∈ s.images := List.mem_of_find?_eq_some hf
            have hid : i.id = eid := by
              have := List.find?_some hf
              simpa [beq_iff_eq] using this
            have hrw : authorize s uid act EntityKind.image eid = imagesOwnProject s uid i := by
              simp [authorize, hf]
            rw [hrw, imagesOwnProject_iff] at h
            exact ⟨i, hmem, hid, h⟩
    | ann =>
        cases hf : findAnn s eid with
        | none => simp [authorize, hf] at h
        | some a =>
            have hmem : a ∈ s.anns := List.mem_of_find?_eq_some hf
            have hid : a.id = eid := by
              have := List.find?_some hf
              simpa [beq_iff_eq] using this
            cases act with
            | insert =>
                have hrw : authorize s uid Act.insert EntityKind.ann eid
                    = annsCheck s uid a := by
                  simp [authorize, hf]
                rw [hrw, annsCheck_iff] at h
                exact ⟨a, hmem, hid, h.1, fun _ => h.2⟩
            | select =>
                have hrw : authorize s uid Act.select EntityKind.ann eid
                    = annsUsing s uid a := by
                  simp [authorize, hf]
                rw [hrw, annsUsing_iff] at h
                exact ⟨a, hmem, hid, h, fun h' => nomatch h'⟩
            | update =>
                have hrw : authorize s uid Act.update EntityKind.ann eid
                    = annsUsing s uid a := by
                  simp [authorize, hf]
                rw [hrw, annsUsing_iff] at h
                exact ⟨a, hmem, hid, h, fun h' => nomatch h'⟩
            | delete =>
                have hrw : authorize s uid Act.delete EntityKind.ann eid
                    = annsUsing s uid a := by
                  simp [authorize, hf]
                rw [hrw, annsUsing_iff] at h
                exact ⟨a, hmem, hid, h, fun h' => nomatch h'⟩

/-- C6 (witness): in `sC6` every dangling entity is denied. -/
theorem C6_witness :
    authorize sC6 7 Act.select EntityKind.label 40 = false ∧
    authorize sC6 7 Act.update EntityKind.image 20 = false ∧
    authorize sC6 7 Act.delete EntityKind.ann 30 = false :=
  ⟨(C6_default_deny sC6 7 Act.select).1 40 ⟨40, 99, "dangling", "#3B82F6", AnnType.mask⟩
      (by decide) (by decide),
   (C6_default_deny sC6 7 Act.update).2.1 20 ⟨20, 99, "img.png", ImageStatus.pending, none, 1⟩
      (by decide) (by decide),
   (C6_default_deny sC6 7 Act.delete).2.2.1 30 ⟨30, 20, 40, "data", AnnType.mask, 1, none, none⟩
      (by decide) (by decide)⟩
/-- C7: no policy-governed operation can change the creator of a stored
project: any project row present before and after a step with the same id
has the same `created_by`.  In particular an authorized UPDATE preserves
the creator, since its USING and WITH CHECK both pin `created_by` to the
caller. -/
theorem C7_creator_immutable (s : Store) (op : Op)
    (hnodup : (s.projects.map Project.id).Nodup) :
    ∀ p ∈ s.projects, ∀ p' ∈ (step s op).projects, p'.id = p.id →
      p'.created_by = p.created_by := by
  have base : ∀ p ∈ s.projects, ∀ p' ∈ s.projects, p'.id = p.id →
      p'.created_by = p.created_by := by
    intro p hp p' hp' hid
    rw [List.inj_on_of_nodup_map hnodup hp' hp hid]
  cases op with
  | insertProject uid P =>
      simp only [step]
      unfold insertProject
      repeat' split
      all_goals try exact base
      rename_i hown hfresh
      intro q hq p' hp' hid
      rcases List.mem_cons.mp hp' with h | h
      · subst h
        have hfresh' : ∀ x ∈ s.projects, x.id ≠ p'.id := by
          simpa [List.any_eq_false, beq_iff_eq] using hfresh
        exact absurd hid.symm (hfresh' q hq)
      · exact base q hq p' h hid
  | updateProject uid P =>
      simp only [step]
      unfold updateProject
      split
      · exact base
      · rename_i old hfind
        split
        · split
          · rename_i hu hc
            intro q hq p' hp' hid
            rcases mem_replace Project.id P s.projects p' hp' with h | ⟨hmem, _⟩
            · subst h
              have holdmem : old ∈ s.projects := List.mem_of_find?_eq_some hfind
              have holdid : old.id = p'.id := by
                simpa [beq_iff_eq] using List.find?_some hfind
              have hq_eq : q = old :=
                List.inj_on_of_nodup_map hnodup hq holdmem (hid.symm.trans holdid.symm)
              rw [hq_eq, (projectsOwn_iff uid p').mp hc, (projectsOwn_iff uid old).mp hu]
            · exact base q hq p' hmem hid
          · exact base
        · exact base
  | deleteProject uid pid =>
      simp only [step]
      unfold deleteProject
      repeat' split
      all_goals try exact base
      intro q hq p' hp' hid
      exact base q hq p' (List.mem_of_mem_filter hp') hid
  | signup uid e f =>
      simp only [step]
      unfold signup
      repeat' split
      all_goals exact base
  | updateProfile uid r =>
      simp only [step]
      unfold updateProfile
      repeat' split
      all_goals exact base
  | insertMember uid m =>
      simp only [step]
      unfold insertMember
      repeat' split
      all_goals exact base
  | deleteMember uid mid =>
      simp only [step]
      unfold deleteMember
      repeat' split
      all_goals exact base
  | insertLabel uid l =>
      simp only [step]
      unfold insertLabel
      repeat' split
      all_goals exact base
  | updateLabel uid l =>
      simp only [step]
      unfold updateLabel
      repeat' split
      all_goals exact base
  | deleteLabel uid lid =>
      simp only [step]
      unfold deleteLabel
      repeat' split
      all_goals exact base
  | insertImage uid i =>
      simp only [step]
      unfold insertImage
      repeat' split
      all_goals exact base
  | updateImage uid i =>
      simp only [step]
      unfold updateImage
      repeat' split
      all_goals exact base
  | deleteImage uid iid =>
      simp only [step]
      unfold deleteImage
      repeat' split
      all_goals exact base
  | insertAnn uid a =>
      simp only [step]
      unfold insertAnn
      repeat' split
      all_goals exact base
  | updateAnn uid a =>
      simp only [step]
      unfold updateAnn
      repeat' split
      all_goals exact base
  | deleteAnn uid aid =>
      simp only [step]
      unfold deleteAnn
      repeat' split
      all_goals exact base

/-- C7 (witness): updating project 10 in `sC1` keeps creator 1. -/
theorem C7_witness :
    (⟨10, "renamed", 1, ProjectStatus.completed⟩ : Project).created_by
      = (⟨10, "p1", 1, ProjectStatus.active⟩ : Project).created_by :=
  C7_creator_immutable sC1 (Op.updateProject 1 ⟨10, "renamed", 1, ProjectStatus.completed⟩)
    (by decide) ⟨10, "p1", 1, ProjectStatus.active⟩ (by decide)
    ⟨10, "renamed", 1, ProjectStatus.completed⟩ (by decide) rfl
/-- Operation sequence: signup, create a project, create a label. -/
def opsC8 : List Op :=
  [Op.signup 1 "u1@x" "U1",
   Op.insertProject 1 ⟨10, "p1", 1, ProjectStatus.active⟩,
   Op.insertLabel 1 ⟨40, 10, "cat", "#3B82F6", AnnType.bounding_box⟩]

/-- Reachable store with one project and one label. -/
def sC8 : Store := runOps opsC8

/-- C8: in every reachable store no two labels of the same project share a
name, and an authorized insert of a label whose (project, name) pair is
already taken fails with `UniqueConstraintViolation` — unmasked — leaving
the store unchanged. -/
theorem C8_label_name_uniqueness (s : Store) (h : Reachable s) :
    labelNamesUnique s ∧
    ∀ uid l, labelsOwnProject s uid l = true →
      (∃ l0 ∈ s.labels, l0.project_id = l.project_id ∧ l0.name = l.name) →
      insertLabel s uid l = (s, some DbErr.uniqueConstraintViolation) := by
  refine ⟨(reachable_good s h).names_unique, ?_⟩
  rintro uid l hpol ⟨l0, hl0, hp, hn⟩
  have hconf : (s.labels.any fun x => x.project_id == l.project_id && x.name == l.name)
      = true :=
    List.any_eq_true.mpr ⟨l0, hl0, by simp [beq_iff_eq, hp, hn]⟩
  unfold insertLabel
  rw [hpol, hconf]
  simp

/-- C8 (witness): inserting a second "cat" label into project 10 of the
reachable store `sC8` fails with a uniqueness violation. -/
theorem C8_witness :
    insertLabel sC8 1 ⟨41, 10, "cat", "#000000", AnnType.polygon⟩
      = (sC8, some DbErr.uniqueConstraintViolation) :=
  (C8_label_name_uniqueness sC8 ⟨opsC8, rfl⟩).2 1 ⟨41, 10, "cat", "#000000", AnnType.polygon⟩
    (by decide) (by decide)

/-- C9: a profile row can be SELECTed or UPDATEd exactly by the principal
it belongs to; no other principal — of any global role — passes the
profile policies. -/
theorem C9_profile_access (s : Store) (uid : Nat) (act : Act) (r : Profile)
    (hfind : findProfile s r.id = some r)
    (hact : act = Act.select ∨ act = Act.update) :
    authorize s uid act EntityKind.profile r.id = true ↔ r.id = uid := by
  have h : authorize s uid act EntityKind.profile r.id = profilesOwn uid r := by
    rcases hact with h | h <;> subst h <;> simp [authorize, hfind]
  rw [h]
  simp only [profilesOwn, beq_iff_eq]
  exact ⟨fun hh => hh.symm, fun hh => hh.symm⟩

/-- C9 (witness): principal 1 may read their own profile in `sC1`. -/
theorem C9_witness : authorize sC1 1 Act.select EntityKind.profile 1 = true :=
  (C9_profile_access sC1 1 Act.select ⟨1, "u1@x", "U1", Role.annotator⟩
    (by decide) (Or.inl rfl)).mpr rfl

/-- Operation sequence extending `opsC8` with an image and an annotation. -/
def opsC10 : List Op :=
  opsC8 ++
    [Op.insertImage 1 ⟨20, 10, "img.png", ImageStatus.pending, none, 1⟩,
     Op.insertAnn 1 ⟨30, 20, 40, "data", AnnType.bounding_box, 1, none, none⟩]

/-- Reachable store with a project, label, image and annotation. -/
def sC10 : Store := runOps opsC10

/-- C10: in every store reachable under the final rule set, each
annotation's creator equals the creator of its owning project (through
the image that carries it). -/
theorem C10_ann_creator (s : Store) (h : Reachable s) :
    ∀ a ∈ s.anns, ∀ i ∈ s.images, i.id = a.image_id →
      ∀ p ∈ s.projects, p.id = i.project_id → a.created_by = p.created_by :=
  (reachable_good s h).ann_creator

/-- C10 (witness): in the reachable store `sC10` the stored annotation's
creator matches the project creator. -/
theorem C10_witness :
    (⟨30, 20, 40, "data", AnnType.bounding_box, 1, none, none⟩ : Ann).created_by
      = (⟨10, "p1", 1, ProjectStatus.active⟩ : Project).created_by :=
  C10_ann_creator sC10 ⟨opsC10, rfl⟩
    ⟨30, 20, 40, "data", AnnType.bounding_box, 1, none, none⟩ (by decide)
    ⟨20, 10, "img.png", ImageStatus.pending, none, 1⟩ (by decide) rfl
    ⟨10, "p1", 1, ProjectStatus.active⟩ (by decide) rfl
